import Mathlib

/-
Verification of the skill event-callback registry and dispatch mechanism of
the RPG plugin (`rpg/skill.py`), as a shallow embedding in Lean 4.

The Python module defines:
  * `event_callback(*event_names)` — a decorator attaching an `_events`
    tuple to a callback function;
  * `_SkillMeta.__init__` — a metaclass initializer that, for each newly
    constructed class, assigns a fresh `collections.defaultdict(list)` to
    `cls._event_callbacks` and then, for every attribute `f` of the class
    body carrying an `_events` attribute, appends `f` to
    `cls._event_callbacks[event_name]` for each of its event names;
  * `Skill.__init__(level=0)` storing `self.level = level` verbatim;
  * properties `upgrade_cost = (level + 1) * 5` and
    `downgrade_refund = level * 4`;
  * `Skill.execute_callbacks(event_name, **event_args)` — returns
    immediately when `event_name not in self._event_callbacks`, otherwise
    calls each registered callback in order with `(self, **event_args)`;
  * `TickRepeatSkill.__init__` creating `TickRepeat(self._tick)` and the
    default `_tick` raising `NotImplementedError`.

Machine integers are modelled as `Int` (Python ints are unbounded).
Exceptions are modelled with `Except`.  Dispatch additionally returns the
(possibly updated) class mapping — to make the defaultdict-mutation
question expressible — and a trace of the callback invocations performed.
-/

set_option autoImplicit false

namespace RPG

/-- Python exceptions that the modelled code can raise or propagate. -/
inductive PyError where
  | notImplementedError (msg : String)
  | exn (msg : String)
deriving DecidableEq

/-- The `**event_args` keyword arguments forwarded to a callback, modelled
as an ordered association list from argument name to an integer payload. -/
abbrev EventArgs := List (String × Int)

/-- The mutable state of a `Skill` instance: its `level` attribute
(`self.level = level` is the only instance attribute `Skill.__init__`
creates). -/
structure SkillState where
  level : Int
deriving DecidableEq

/-- A function declared in a class body.  `id` is the identity of the
function object, `events` models the optional `_events` attribute
(`none` when `hasattr(f, '_events')` is false), and `run` is the
behaviour of calling `f(self, **event_args)`: it may read and update the
instance state or raise. -/
structure Method where
  id : Nat
  events : Option (List String)
  run : SkillState → EventArgs → Except PyError SkillState

/-- The `_event_callbacks` dictionary: event name to ordered callback
list, keys in insertion order (Python dicts preserve insertion order). -/
abbrev Mapping := List (String × List Method)

/-- `event_callback(*event_names)` applied to a callback: attaches the
names as the `_events` attribute and returns the callback itself. -/
def event_callback (event_names : List String) (callback : Method) : Method :=
  { callback with events := some event_names }

/-- Dictionary membership and lookup: `event_name in d` / `d[k]` for a
key already present. -/
def mget : Mapping → String → Option (List Method)
  | [], _ => none
  | (k, v) :: rest, ev => if k = ev then some v else mget rest ev

/-- `d[k].append(f)` on a `collections.defaultdict(list)`: if the key is
present, append to its list in place; otherwise create the key (at the
end, per insertion order) with the one-element list. -/
def ddAppend : Mapping → String → Method → Mapping
  | [], ev, f => [(ev, [f])]
  | (k, v) :: rest, ev, f =>
    if k = ev then (k, v ++ [f]) :: rest else (k, v) :: ddAppend rest ev f

/-- `d[k]` on a `collections.defaultdict(list)`: a present key returns its
list and leaves the dict unchanged; a missing key inserts an empty list
under it and returns that empty list. -/
def ddGetItem (m : Mapping) (k : String) : List Method × Mapping :=
  match mget m k with
  | some v => (v, m)
  | none => ([], m ++ [(k, [])])

/-- The body of `_SkillMeta.__init__`'s loop for one attribute `f`:
`if not hasattr(f, '_events'): continue` then
`for event_name in f._events: cls._event_callbacks[event_name].append(f)`. -/
def registerMethod (m : Mapping) (f : Method) : Mapping :=
  match f.events with
  | none => m
  | some evs => evs.foldl (fun acc ev => ddAppend acc ev f) m

/-- `_SkillMeta.__init__`'s effect on `cls._event_callbacks`: start from a
fresh empty defaultdict and run the loop over `attrs.values()` in class
body declaration order. -/
def buildEventCallbacks (attrs : List Method) : Mapping :=
  attrs.foldl registerMethod []

/-- `_SkillMeta.__init__(cls, name, bases, attrs)`: the new class's
`_event_callbacks`.  The metaclass assigns a fresh
`collections.defaultdict(list)` and fills it from `attrs` only; the
`bases` argument is never consulted for callbacks (it is passed to
`type.__init__`, which does not touch `_event_callbacks`). -/
def skillMetaInit (_bases : List Mapping) (attrs : List Method) : Mapping :=
  buildEventCallbacks attrs

/-- `Skill.__init__(self, level=0)`: stores the argument verbatim. -/
def Skill.init (level : Int) : SkillState :=
  { level := level }

/-- `Skill()` with the `level` argument omitted: the default is `0`. -/
def Skill.initDefault : SkillState :=
  Skill.init 0

/-- The `upgrade_cost` property: evaluates `(self.level + 1) * 5` and
returns it; the property body contains no assignment, so the instance
state is returned unchanged. -/
def upgrade_cost (s : SkillState) : Int × SkillState :=
  ((s.level + 1) * 5, s)

/-- The `downgrade_refund` property: evaluates `self.level * 4`; no
assignment, state returned unchanged. -/
def downgrade_refund (s : SkillState) : Int × SkillState :=
  (s.level * 4, s)

/-- One performed callback invocation: which callback was called, the
instance state it received, and the event arguments it received. -/
structure Invocation where
  cb : Nat
  self : SkillState
  args : EventArgs
deriving DecidableEq

/-- The `for callback in self._event_callbacks[event_name]` loop:
`callback(self, **event_args)` for each callback in order.  An exception
raised by a callback aborts the loop and propagates; the invocation that
raised is still recorded as performed. -/
def runCallbacks : List Method → SkillState → EventArgs →
    List Invocation × Except PyError SkillState
  | [], s, _ => ([], Except.ok s)
  | cb :: rest, s, args =>
    match cb.run s args with
    | Except.error e => ([⟨cb.id, s, args⟩], Except.error e)
    | Except.ok s' =>
      let p := runCallbacks rest s' args
      (⟨cb.id, s, args⟩ :: p.1, p.2)

/-- `Skill.execute_callbacks(self, event_name, **event_args)`:
`if event_name not in self._event_callbacks: return`, otherwise iterate
over `self._event_callbacks[event_name]` (a defaultdict item access)
calling each callback.  Returns the class mapping after the call, the
trace of invocations performed, and the instance state or the propagated
exception. -/
def execute_callbacks (m : Mapping) (s : SkillState) (event_name : String)
    (event_args : EventArgs) :
    Mapping × List Invocation × Except PyError SkillState :=
  if (mget m event_name).isSome = false then (m, [], Except.ok s)
  else
    let p := ddGetItem m event_name
    let q := runCallbacks p.1 s event_args
    (p.2, q.1, q.2)

/-- Modelled from the spec: `TickRepeat` from `listeners.tick` is an
external collaborator absent from this repository — the external periodic
scheduler receives a callback reference at construction and merely stores
it, invoking it once per timer trigger until canceled; construction
performs no invocation. -/
structure TickRepeat where
  callback : EventArgs → Except PyError Unit

/-- `TickRepeatSkill._tick(self, *args, **kwargs)`: the default body
unconditionally raises `NotImplementedError`. -/
def TickRepeatSkill.tick (_args : EventArgs) : Except PyError Unit :=
  Except.error (PyError.notImplementedError
    "_tick method not implemented by a TickRepeatSkill class.")

/-- The state of a `TickRepeatSkill` instance: the inherited `level` and
the `tick_repeat` attribute. -/
structure TickRepeatSkillState where
  level : Int
  tick_repeat : TickRepeat

/-- `TickRepeatSkill.__init__(self, level=0)`: `super().__init__(level)`
then `self.tick_repeat = TickRepeat(self._tick)` — the timer stores the
(unoverridden) `_tick` method without calling it. -/
def TickRepeatSkill.init (level : Int) : TickRepeatSkillState :=
  { level := level, tick_repeat := { callback := TickRepeatSkill.tick } }

/-- One trigger of the external timer: the scheduler invokes the stored
callback. -/
def TickRepeat.trigger (t : TickRepeat) (args : EventArgs) : Except PyError Unit :=
  t.callback args

/-- `n` successive triggers of the timer: the list of their outcomes. -/
def TickRepeat.triggerN (t : TickRepeat) (args : EventArgs) : Nat → List (Except PyError Unit)
  | 0 => []
  | n + 1 => t.trigger args :: t.triggerN args n

/-- A store of per-class `_event_callbacks` dictionaries, indexed by
object reference; models Python object identity for the aliasing claim.
`skillMetaInitStore` is `cls._event_callbacks = collections.defaultdict(list)`
followed by the registration loop: it always allocates a fresh dictionary
object. -/
def skillMetaInitStore (store : List Mapping) (attrs : List Method) :
    List Mapping × Nat :=
  (store ++ [buildEventCallbacks attrs], store.length)

/-- Read the dictionary at a reference. -/
def storeGet (store : List Mapping) (r : Nat) : Mapping :=
  store.getD r []

/-- Mutate the dictionary at a reference (were mutation exposed). -/
def storeSet (store : List Mapping) (r : Nat) (m : Mapping) : List Mapping :=
  store.set r m

/-- The callbacks a class body `attrs` declares for event `ev`, in
declaration order, one occurrence per time the method lists `ev` in its
`_events` tuple.  Characterizes what `buildEventCallbacks` registers. -/
def declaredFor : List Method → String → List Method
  | [], _ => []
  | f :: rest, ev =>
    List.replicate ((f.events.getD []).count ev) f ++ declaredFor rest ev

/-- Whether a modelled Python call returned normally, i.e. raised no
exception. -/
def returnsNormally {α : Type} : Except PyError α → Bool
  | Except.ok _ => true
  | Except.error _ => false

/-! ### Concrete skill classes used in witnesses and counterexamples -/

/-- A callback that reads the instance and returns normally. -/
def okMethod (n : Nat) : Method :=
  { id := n, events := some ["player_spawn"], run := fun t _ => Except.ok t }

/-- A callback that raises. -/
def failMethod : Method :=
  { id := 1, events := some ["player_spawn"],
    run := fun _ _ => Except.error (PyError.exn "boom") }

/-- An undecorated method (no `_events` attribute). -/
def plainMethod : Method :=
  { id := 5, events := none, run := fun t _ => Except.ok t }

/-- Registry of a class declaring one `player_spawn` callback. -/
def oneCallbackMapping : Mapping := buildEventCallbacks [okMethod 0]

/-- Registry of a class declaring, in order, a succeeding callback, a
raising callback and another succeeding callback, all on `player_spawn`. -/
def failingCallbackMapping : Mapping :=
  buildEventCallbacks [okMethod 0, failMethod, okMethod 2]

/-- `Bonus_Health._give_health`, decorated with `player_spawn`. -/
def _give_health : Method :=
  { id := 0, events := some ["player_spawn"], run := fun t _ => Except.ok t }

/-- The second callback `Bonus_Health_Plus` adds on `player_spawn`. -/
def _give_extra_health : Method :=
  { id := 1, events := some ["player_spawn"], run := fun t _ => Except.ok t }

/-- `Bonus_Health._event_callbacks`: the metaclass runs on the base class
body, which declares `_give_health`. -/
def Bonus_Health_callbacks : Mapping := skillMetaInit [] [_give_health]

/-- `Bonus_Health_Plus(Bonus_Health)._event_callbacks`: the metaclass
runs again on the subclass body, which declares only the new callback. -/
def Bonus_Health_Plus_callbacks : Mapping :=
  skillMetaInit [Bonus_Health_callbacks] [_give_extra_health]

end RPG

namespace RPG

/-! ### Basic lemmas about the association-list dictionary -/

theorem mget_ddAppend (m : Mapping) (k ev : String) (f : Method) :
    mget (ddAppend m k f) ev =
      if ev = k then some ((mget m k).getD [] ++ [f]) else mget m ev := by
  induction m with
  | nil =>
    by_cases h : ev = k
    · simp [ddAppend, mget, h]
    · simp [ddAppend, mget, h, Ne.symm h]
  | cons hd tl ih =>
    obtain ⟨k', v⟩ := hd
    by_cases hk : k' = k
    · subst hk
      by_cases hev : ev = k'
      · subst hev
        simp [ddAppend, mget]
      · simp [ddAppend, mget, hev, Ne.symm hev]
    · by_cases hev : ev = k'
      · subst hev
        simp [ddAppend, mget, hk, Ne.symm hk]
      · simp [ddAppend, mget, hk, hev, Ne.symm hev, ih]

/-- Value part of the mapping after the inner loop over one method's
event-name tuple. -/
theorem mget_getD_innerFold (evs : List String) (f : Method) (m : Mapping)
    (ev : String) :
    (mget (evs.foldl (fun acc e => ddAppend acc e f) m) ev).getD [] =
      (mget m ev).getD [] ++ List.replicate (evs.count ev) f := by
  induction evs generalizing m with
  | nil => simp
  | cons e rest ih =>
    rw [List.foldl_cons, ih]
    by_cases h : ev = e
    · subst h
      simp [mget_ddAppend, List.count_cons_self, List.replicate_succ,
        List.append_assoc]
    · rw [List.count_cons]
      simp [mget_ddAppend, h, Ne.symm h]

/-- Presence part of the mapping after the inner loop. -/
theorem mget_isSome_innerFold (evs : List String) (f : Method) (m : Mapping)
    (ev : String) :
    (mget (evs.foldl (fun acc e => ddAppend acc e f) m) ev).isSome =
      ((mget m ev).isSome || evs.contains ev) := by
  induction evs generalizing m with
  | nil => simp
  | cons e rest ih =>
    rw [List.foldl_cons, ih]
    by_cases h : ev = e
    · subst h
      simp [mget_ddAppend]
    · simp [mget_ddAppend, h, Ne.symm h, List.contains_cons]

theorem registerMethod_eq_innerFold (m : Mapping) (f : Method) :
    registerMethod m f =
      (f.events.getD []).foldl (fun acc e => ddAppend acc e f) m := by
  cases h : f.events <;> simp [registerMethod, h]

/-- Value part of the mapping after the metaclass loop over the class
body. -/
theorem mget_getD_buildFold (attrs : List Method) (m : Mapping) (ev : String) :
    (mget (attrs.foldl registerMethod m) ev).getD [] =
      (mget m ev).getD [] ++ declaredFor attrs ev := by
  induction attrs generalizing m with
  | nil => simp [declaredFor]
  | cons f rest ih =>
    rw [List.foldl_cons, ih, registerMethod_eq_innerFold,
      mget_getD_innerFold, declaredFor, List.append_assoc]

/-- Presence part of the mapping after the metaclass loop. -/
theorem mget_isSome_buildFold (attrs : List Method) (m : Mapping) (ev : String) :
    (mget (attrs.foldl registerMethod m) ev).isSome =
      ((mget m ev).isSome || attrs.any (fun f => (f.events.getD []).contains ev)) := by
  induction attrs generalizing m with
  | nil => simp
  | cons f rest ih =>
    rw [List.foldl_cons, ih, registerMethod_eq_innerFold, mget_isSome_innerFold]
    simp [Bool.or_assoc]

theorem mget_eq_if_isSome (m : Mapping) (ev : String) :
    mget m ev = if (mget m ev).isSome then some ((mget m ev).getD []) else none := by
  cases h : mget m ev <;> simp [h]

theorem declaredFor_eq_nil_iff (attrs : List Method) (ev : String) :
    declaredFor attrs ev = [] ↔
      attrs.any (fun f => (f.events.getD []).contains ev) = false := by
  induction attrs with
  | nil => simp [declaredFor]
  | cons f rest ih =>
    simp only [declaredFor, List.append_eq_nil, List.any_cons, Bool.or_eq_false_iff,
      ih, List.replicate_eq_nil_iff, List.count_eq_zero]
    constructor
    · rintro ⟨h1, h2⟩
      exact ⟨by simpa using h1, h2⟩
    · rintro ⟨h1, h2⟩
      exact ⟨by simpa using h1, h2⟩

/-- Full characterization of a freshly built class registry: the value
under each key, and absence of a key exactly when nothing was declared
for it. -/
theorem mget_buildEventCallbacks (attrs : List Method) (ev : String) :
    (mget (buildEventCallbacks attrs) ev).getD [] = declaredFor attrs ev
    ∧ (mget (buildEventCallbacks attrs) ev = none ↔ declaredFor attrs ev = []) := by
  constructor
  · rw [buildEventCallbacks, mget_getD_buildFold]
    simp [mget]
  · rw [buildEventCallbacks, ← Option.not_isSome_iff_eq_none, mget_isSome_buildFold,
      declaredFor_eq_nil_iff]
    simp [mget]

/-! ### Store lemmas for the aliasing claim -/

theorem getD_append_two (xs : List Mapping) (a b : Mapping) :
    (xs ++ [a, b]).getD xs.length [] = a
    ∧ (xs ++ [a, b]).getD (xs.length + 1) [] = b := by
  induction xs with
  | nil => exact ⟨rfl, rfl⟩
  | cons x rest ih => simpa using ih

theorem getD_set_ne (l : List Mapping) (i j : Nat) (a : Mapping) (h : i ≠ j) :
    (l.set i a).getD j [] = l.getD j [] := by
  induction l generalizing i j with
  | nil => rfl
  | cons x rest ih =>
    cases i with
    | zero =>
      cases j with
      | zero => exact absurd rfl h
      | succ j' => rfl
    | succ i' =>
      cases j with
      | zero => rfl
      | succ j' => exact ih i' j' (fun hh => h (by rw [hh]))

/-- Triggering the default `_tick` `n` times yields `n` copies of the
`NotImplementedError`. -/
theorem triggerN_default_tick (args : EventArgs) :
    ∀ n : Nat, TickRepeat.triggerN ⟨TickRepeatSkill.tick⟩ args n
      = List.replicate n (Except.error (PyError.notImplementedError
          "_tick method not implemented by a TickRepeatSkill class."))
  | 0 => rfl
  | n + 1 => by
    show TickRepeat.trigger _ args :: TickRepeat.triggerN _ args n = _
    rw [triggerN_default_tick args n, List.replicate_succ]
    rfl

end RPG

namespace RPG

/-! ### Lemmas about the dispatch loop -/

/-- When every registered callback returns normally on the given event
data, the loop invokes each of them once, in order, forwarding the same
event data, and returns normally. -/
theorem runCallbacks_all_ok (args : EventArgs) (cbs : List Method) (s : SkillState)
    (hok : ∀ cb ∈ cbs, ∀ t : SkillState, returnsNormally (cb.run t args) = true) :
    (runCallbacks cbs s args).1.map Invocation.cb = cbs.map Method.id
    ∧ (∀ inv ∈ (runCallbacks cbs s args).1, inv.args = args)
    ∧ returnsNormally (runCallbacks cbs s args).2 = true := by
  induction cbs generalizing s with
  | nil => simp [runCallbacks, returnsNormally]
  | cons cb rest ih =>
    have hcb := hok cb (List.mem_cons_self cb rest) s
    cases hrun : cb.run s args with
    | error e =>
      rw [hrun] at hcb
      simp [returnsNormally] at hcb
    | ok s' =>
      have h := ih s' (fun c hc t => hok c (List.mem_cons_of_mem cb hc) t)
      simp only [runCallbacks, hrun, List.map_cons]
      refine ⟨by simp [h.1], ?_, h.2.2⟩
      intro inv hinv
      rcases List.mem_cons.mp hinv with h1 | h2
      · subst h1
        rfl
      · exact h.2.1 inv h2

/-- When the callbacks before position `k` return normally and the one at
position `k` raises `e`, the loop raises `e` after invoking exactly the
first `k + 1` callbacks. -/
theorem runCallbacks_error_aborts (args : EventArgs) (e : PyError)
    (pre : List Method) (cb : Method) (post : List Method) (s : SkillState)
    (hpre : ∀ c ∈ pre, ∀ t : SkillState, returnsNormally (c.run t args) = true)
    (herr : ∀ t : SkillState, cb.run t args = Except.error e) :
    (runCallbacks (pre ++ cb :: post) s args).2 = Except.error e
    ∧ (runCallbacks (pre ++ cb :: post) s args).1.map Invocation.cb
        = pre.map Method.id ++ [cb.id] := by
  induction pre generalizing s with
  | nil => simp [runCallbacks, herr s]
  | cons c rest ih =>
    have hc := hpre c (List.mem_cons_self c rest) s
    cases hrun : c.run s args with
    | error e' =>
      rw [hrun] at hc
      simp [returnsNormally] at hc
    | ok s' =>
      have h := ih s' (fun d hd t => hpre d (List.mem_cons_of_mem c hd) t)
      simp [runCallbacks, hrun, h.1, h.2]

end RPG

namespace RPG

/-! ### Claim theorems -/

/-- C1 (counterexample): in Scenario B, the base class `Bonus_Health`
registers its `player_spawn` callback (id 0), but the subclass
`Bonus_Health_Plus`'s `_event_callbacks` contains only the newly added
callback (id 1): the inherited callback is absent from the mapping and
does not fire when `player_spawn` is dispatched on a subclass instance. -/
theorem subclass_mapping_drops_inherited_callback :
    ((mget Bonus_Health_callbacks "player_spawn").getD []).map Method.id = [0]
    ∧ ((mget Bonus_Health_Plus_callbacks "player_spawn").getD []).map Method.id = [1]
    ∧ ((execute_callbacks Bonus_Health_Plus_callbacks (Skill.init 2) "player_spawn"
          [("player", 7)]).2.1).map Invocation.cb = [1] :=
  ⟨rfl, rfl, rfl⟩

/-- C1 (amended): a skill class's `event_callbacks` mapping is built from
its own class body only — for every event name it holds exactly the
callbacks the class body itself declares for that name, in declaration
order, whatever the base classes' mappings are; base-class callbacks are
not merged in. -/
theorem event_callbacks_built_from_own_body_only (bases : List Mapping)
    (attrs : List Method) (ev : String) :
    (mget (skillMetaInit bases attrs) ev).getD [] = declaredFor attrs ev
    ∧ (mget (skillMetaInit bases attrs) ev = none ↔ declaredFor attrs ev = []) :=
  mget_buildEventCallbacks attrs ev

/-- C2: when the class registry holds `cbs` for the event name and every
registered callback returns normally on the given event data, dispatch
invokes exactly those callbacks, once each, in declaration order, each
invocation receiving the current instance state and the same event data,
and returns normally. -/
theorem dispatch_invokes_registered_callbacks_in_order (m : Mapping)
    (ev : String) (cbs : List Method) (args : EventArgs) (s : SkillState)
    (hreg : mget m ev = some cbs)
    (hok : ∀ cb ∈ cbs, ∀ t : SkillState, returnsNormally (cb.run t args) = true) :
    ((execute_callbacks m s ev args).2.1).map Invocation.cb = cbs.map Method.id
    ∧ (∀ inv ∈ (execute_callbacks m s ev args).2.1, inv.args = args)
    ∧ returnsNormally (execute_callbacks m s ev args).2.2 = true := by
  have h := runCallbacks_all_ok args cbs s hok
  simp only [execute_callbacks, ddGetItem, hreg, Option.isSome_some,
    Bool.true_eq_false, if_false]
  exact h

/-- C2 (witness): a class with one `player_spawn` callback of id `0`,
dispatched at level 2 with event data `[("player", 7)]`. -/
theorem dispatch_invokes_registered_callbacks_in_order_witness :
    mget oneCallbackMapping "player_spawn" = some [okMethod 0]
    ∧ ((execute_callbacks oneCallbackMapping (Skill.init 2) "player_spawn"
          [("player", 7)]).2.1).map Invocation.cb = [0] := by
  have h1 : mget oneCallbackMapping "player_spawn" = some [okMethod 0] := rfl
  refine ⟨h1, ?_⟩
  have h := dispatch_invokes_registered_callbacks_in_order oneCallbackMapping
    "player_spawn" [okMethod 0] [("player", 7)] (Skill.init 2) h1 ?_
  · exact h.1
  · intro cb hcb t
    rw [List.mem_singleton.mp hcb]
    rfl

/-- C3: for every instance whose level is at least 0, reading
`upgrade_cost` yields `(level + 1) * 5` and reading `downgrade_refund`
yields `level * 4`, and both property reads return the instance state
unchanged. -/
theorem upgrade_cost_downgrade_refund_pure (s : SkillState) (h : 0 ≤ s.level) :
    (upgrade_cost s).1 = (s.level + 1) * 5
    ∧ (upgrade_cost s).2 = s
    ∧ (downgrade_refund s).1 = s.level * 4
    ∧ (downgrade_refund s).2 = s :=
  ⟨rfl, rfl, rfl, rfl⟩

/-- C3 (witness): a skill at level 3 prices its upgrade at 20 and its
downgrade refund at 12, leaving the state unchanged. -/
theorem upgrade_cost_downgrade_refund_pure_witness :
    0 ≤ (Skill.init 3).level
    ∧ (upgrade_cost (Skill.init 3)).1 = 20
    ∧ (downgrade_refund (Skill.init 3)).1 = 12 := by
  refine ⟨by decide, ?_, ?_⟩
  · have h := upgrade_cost_downgrade_refund_pure (Skill.init 3) (by decide)
    rw [h.1]
    decide
  · have h := upgrade_cost_downgrade_refund_pure (Skill.init 3) (by decide)
    rw [h.2.2.1]
    decide

/-- C4: dispatching an event name absent from the class registry is a
silent no-op: no exception, no callback invocation, the mapping and the
instance state returned unchanged. -/
theorem dispatch_unknown_event_is_noop (m : Mapping) (s : SkillState)
    (ev : String) (args : EventArgs) (habsent : mget m ev = none) :
    execute_callbacks m s ev args = (m, [], Except.ok s) := by
  simp [execute_callbacks, habsent]

/-- C4 (witness): dispatching `player_death` on a class with an empty
registry. -/
theorem dispatch_unknown_event_is_noop_witness :
    mget ([] : Mapping) "player_death" = none
    ∧ execute_callbacks [] (Skill.init 0) "player_death" []
        = ([], [], Except.ok (Skill.init 0)) :=
  ⟨rfl, dispatch_unknown_event_is_noop [] (Skill.init 0) "player_death" [] rfl⟩

/-- C5: when the callbacks registered before position `k` return normally
and the one at position `k` raises `e`, dispatch propagates `e` unchanged
to its caller and the callbacks after position `k` are not invoked. -/
theorem dispatch_propagates_callback_error (m : Mapping) (ev : String)
    (pre : List Method) (cb : Method) (post : List Method) (args : EventArgs)
    (s : SkillState) (e : PyError)
    (hreg : mget m ev = some (pre ++ cb :: post))
    (hpre : ∀ c ∈ pre, ∀ t : SkillState, returnsNormally (c.run t args) = true)
    (herr : ∀ t : SkillState, cb.run t args = Except.error e) :
    (execute_callbacks m s ev args).2.2 = Except.error e
    ∧ ((execute_callbacks m s ev args).2.1).map Invocation.cb
        = pre.map Method.id ++ [cb.id] := by
  have h := runCallbacks_error_aborts args e pre cb post s hpre herr
  simp only [execute_callbacks, ddGetItem, hreg, Option.isSome_some,
    Bool.true_eq_false, if_false]
  exact h

/-- C5 (witness): three `player_spawn` callbacks with the middle one
raising `exn "boom"`: the error propagates and callback id 2 never runs. -/
theorem dispatch_propagates_callback_error_witness :
    mget failingCallbackMapping "player_spawn"
      = some ([okMethod 0] ++ failMethod :: [okMethod 2])
    ∧ (execute_callbacks failingCallbackMapping (Skill.init 1) "player_spawn"
          []).2.2 = Except.error (PyError.exn "boom")
    ∧ ((execute_callbacks failingCallbackMapping (Skill.init 1) "player_spawn"
          []).2.1).map Invocation.cb = [0, 1] := by
  have h1 : mget failingCallbackMapping "player_spawn"
      = some ([okMethod 0] ++ failMethod :: [okMethod 2]) := rfl
  refine ⟨h1, ?_⟩
  have h := dispatch_propagates_callback_error failingCallbackMapping
    "player_spawn" [okMethod 0] failMethod [okMethod 2] [] (Skill.init 1)
    (PyError.exn "boom") h1 ?_ (fun t => rfl)
  · exact ⟨h.1, h.2⟩
  · intro c hc t
    rw [List.mem_singleton.mp hc]
    rfl

end RPG

namespace RPG

/-- C6 (counterexample): `event_callback()` with zero event names is not
rejected — applied to a callback it returns that callback decorated with
an empty `_events` tuple, exactly as for a non-empty tuple. -/
theorem zero_event_names_accepted_at_declaration :
    (event_callback [] plainMethod).events = some []
    ∧ (event_callback [] plainMethod).id = plainMethod.id :=
  ⟨rfl, rfl⟩

/-- C6 (amended): calling the decorator with zero event names succeeds
silently; the resulting callback carries an empty event tuple, so the
metaclass never registers it: any class body containing it builds exactly
the registry it would build without it, hence no failure arises at
declaration time nor at dispatch time. -/
theorem zero_event_names_callback_never_registered (f : Method)
    (pre post : List Method) :
    buildEventCallbacks (pre ++ event_callback [] f :: post)
      = buildEventCallbacks (pre ++ post) := by
  unfold buildEventCallbacks
  rw [List.foldl_append, List.foldl_append, List.foldl_cons]
  rfl

/-- C7: a `TickRepeatSkill` whose subclass never overrides `_tick` is
constructible — construction stores the default `_tick` in the timer
without invoking it and records the level — and each of `n` timer
triggers raises exactly the `NotImplementedError`. -/
theorem tick_default_raises_not_implemented_per_trigger (level : Int)
    (args : EventArgs) (n : Nat) :
    (TickRepeatSkill.init level).level = level
    ∧ (TickRepeatSkill.init level).tick_repeat.callback = TickRepeatSkill.tick
    ∧ TickRepeat.triggerN (TickRepeatSkill.init level).tick_repeat args n
        = List.replicate n (Except.error (PyError.notImplementedError
            "_tick method not implemented by a TickRepeatSkill class.")) := by
  exact ⟨rfl, rfl, triggerN_default_tick args n⟩

/-- C8: dispatch never modifies the class's `event_callbacks` mapping —
for every mapping, instance state, event name (registered or not) and
event data, the mapping after `execute_callbacks` equals the mapping
before. -/
theorem dispatch_preserves_event_callbacks (m : Mapping) (s : SkillState)
    (ev : String) (args : EventArgs) :
    (execute_callbacks m s ev args).1 = m := by
  cases hm : mget m ev with
  | none => simp [execute_callbacks, hm]
  | some v => simp [execute_callbacks, ddGetItem, hm]

/-- C9: each class construction allocates a fresh `event_callbacks`
dictionary object: constructing two classes (even with identically named
callback methods) yields distinct references, each holding exactly its
own freshly built mapping, and mutating the store through one class's
reference leaves the mapping read through the other's reference
unchanged. -/
theorem class_registries_not_aliased (store : List Mapping)
    (attrsA attrsB : List Method) (m2 : Mapping) :
    let p := skillMetaInitStore store attrsA
    let q := skillMetaInitStore p.1 attrsB
    p.2 ≠ q.2
    ∧ storeGet q.1 p.2 = buildEventCallbacks attrsA
    ∧ storeGet q.1 q.2 = buildEventCallbacks attrsB
    ∧ storeGet (storeSet q.1 p.2 m2) q.2 = buildEventCallbacks attrsB
    ∧ storeGet (storeSet q.1 q.2 m2) p.2 = buildEventCallbacks attrsA := by
  intro p q
  have hp2 : p.2 = store.length := rfl
  have hq2 : q.2 = store.length + 1 := by
    simp [skillMetaInitStore, p, q]
  have hq1 : q.1 = store
      ++ [buildEventCallbacks attrsA, buildEventCallbacks attrsB] := by
    simp [skillMetaInitStore, p, q]
  have hpair := getD_append_two store (buildEventCallbacks attrsA)
    (buildEventCallbacks attrsB)
  have hne : p.2 ≠ q.2 := by
    rw [hp2, hq2]
    omega
  have hgetA : storeGet q.1 p.2 = buildEventCallbacks attrsA := by
    rw [storeGet, hq1, hp2]
    exact hpair.1
  have hgetB : storeGet q.1 q.2 = buildEventCallbacks attrsB := by
    rw [storeGet, hq1, hq2]
    exact hpair.2
  refine ⟨hne, hgetA, hgetB, ?_, ?_⟩
  · show (q.1.set p.2 m2).getD q.2 [] = buildEventCallbacks attrsB
    rw [getD_set_ne _ _ _ _ hne]
    exact hgetB
  · show (q.1.set q.2 m2).getD p.2 [] = buildEventCallbacks attrsA
    rw [getD_set_ne _ _ _ _ (Ne.symm hne)]
    exact hgetA

/-- C10: `Skill.__init__` stores its level argument verbatim with no
validation — any integer, negative ones included, is accepted, the level
defaults to 0 when omitted, and the cost properties are computed from the
stored value as-is. -/
theorem skill_init_stores_level_verbatim :
    (∀ level : Int, (Skill.init level).level = level)
    ∧ Skill.initDefault.level = 0
    ∧ (Skill.init (-3)).level = -3
    ∧ (Skill.init 1000000).level = 1000000
    ∧ (∀ level : Int, (upgrade_cost (Skill.init level)).1 = (level + 1) * 5
        ∧ (downgrade_refund (Skill.init level)).1 = level * 4) :=
  ⟨fun _ => rfl, rfl, rfl, rfl, fun _ => ⟨rfl, rfl⟩⟩

end RPG
